import Mathlib

/-!
Verification development for the macOS Desktop Agent core
(Planner → Action → Executor pipeline).

The Python source (app/core/actions.py, app/core/utils.py,
app/core/executor.py, app/core/planner.py, app/main.py) is shallowly
embedded below.  Paths are modelled as lists of components of a
canonical absolute path; `Path(...).expanduser().resolve()` is modelled
as tilde expansion plus lexical normalisation (the model has no
symlinks, so `resolve()` is purely lexical).  The filesystem is a list
of entries (path plus a directory flag); external process launches
(`subprocess.run`) are modelled through oracles in the context and never
touch the filesystem.  Fallible Python code is embedded with `Except`:
`Err.guard` is the executor's `GuardError`, the other constructors model
the Python exceptions (`TypeError` from `Path(None)`, `AttributeError`
from `None.replace`, OS errors).  Directory enumeration (`iterdir`) is
modelled as prefix filtering and does not raise on non-directories.
-/

deriving instance DecidableEq for Except

namespace Agent

/-! ## String helpers (modelling the Python str operations used) -/

/-- Split a list of characters on a separator character, like Python
`str.split(sep)` restricted to a one-character separator. -/
def splitChAux (sep : Char) : List Char → List Char → List String
  | acc, [] => [String.mk acc.reverse]
  | acc, c :: cs =>
    if c = sep then String.mk acc.reverse :: splitChAux sep [] cs
    else splitChAux sep (c :: acc) cs

/-- Split a string on a separator character. -/
def splitCh (sep : Char) (s : String) : List String :=
  splitChAux sep [] s.data

/-- Python `str.strip()` restricted to ASCII whitespace. -/
def pyStrip (s : String) : String :=
  String.mk (((s.data.dropWhile Char.isWhitespace).reverse.dropWhile Char.isWhitespace).reverse)

/-- Python `str.strip(chars)`: remove the given characters from both ends. -/
def pyStripSet (cs : List Char) (s : String) : String :=
  String.mk (((s.data.dropWhile (fun c => cs.contains c)).reverse.dropWhile
    (fun c => cs.contains c)).reverse)

/-- Python `str.replace(old, new)` for one-character old/new. -/
def replCh (a b : Char) (s : String) : String :=
  String.mk (s.data.map (fun c => if c = a then b else c))

/-- Python `str.lower()` (ASCII letters; the inputs used are ASCII or Chinese,
and Chinese characters are unaffected by lowering). -/
def pyLower (s : String) : String :=
  String.mk (s.data.map Char.toLower)

/-- Python `needle in hay` on strings (substring containment). -/
def strContains (hay needle : String) : Bool :=
  decide (needle.data <:+: hay.data)

/-- Python `str.startswith`. -/
def pyStartsWith (s pre : String) : Bool :=
  pre.data.isPrefixOf s.data

/-! ## Path model

A canonical absolute path is its list of components (`/a/b` is
`["a", "b"]`, the root `/` is `[]`). -/

abbrev AbsPath := List String

/-- Interpretation context: the home directory and current working directory
used by `expanduser`/`resolve`, plus oracles for the external process
primitives (`open -a`, `osascript`) used by the executor. -/
structure Ctx where
  home : AbsPath
  cwd : AbsPath
  openAppRc : String → Int
  openAppMsg : String → String
  playMusicRc : Int
  playMusicMsg : String

/-- Lexical normalisation: push components onto an accumulated absolute path,
collapsing `..` (at the root `/..` stays `/`, as on POSIX).  `.` and empty
components are removed before this is called. -/
def collapse (acc : AbsPath) : List String → AbsPath
  | [] => acc
  | c :: rest =>
    if c = ".." then collapse acc.dropLast rest
    else collapse (acc ++ [c]) rest

/-- Parse a raw path string the way `pathlib` does: split on `/`, drop empty
and `.` components, and record whether the path is absolute. -/
def parsePath (s : String) : Bool × List String :=
  (pyStartsWith s ("/"), (splitCh '/' s).filter (fun c => c ≠ "" && c ≠ "."))

/-- Embedding of `utils.expand_user`:
`Path(path).expanduser().resolve()`.  A leading bare `~` component expands to
the home directory; relative paths resolve against the current working
directory.  (`~user` forms, which raise in Python, are treated as literal
components; no theorem below uses them.) -/
def expandUser (ctx : Ctx) (s : String) : AbsPath :=
  let p := parsePath s
  if p.1 then collapse [] p.2
  else
    match p.2 with
    | c :: rest => if c = "~" then collapse ctx.home rest else collapse ctx.cwd (c :: rest)
    | [] => collapse ctx.cwd []

/-- Python `str(path)` for a canonical absolute path. -/
def pathToString (p : AbsPath) : String :=
  if p.isEmpty then "/" else p.foldl (fun acc c => acc ++ "/" ++ c) ""

/-- Python `Path.name`: the final component (empty for the root). -/
def nameOf (p : AbsPath) : String :=
  (p.getLast?).getD ""

/-- Python `Path.parent`: drop the final component (the root is its own parent). -/
def parentOf (p : AbsPath) : AbsPath :=
  p.dropLast

/-- Python `Path.suffix` of a file name: the extension of the final component,
empty unless the last dot sits strictly inside the name
(`pathlib`: nonempty iff `0 < name.rfind('.') < len(name) - 1`). -/
def nameSuffix (n : String) : String :=
  let cs := n.data
  let tl := cs.reverse.takeWhile (fun c => c ≠ '.')
  if tl.length ≠ 0 ∧ tl.length + 1 < cs.length then String.mk ('.' :: tl.reverse) else ""

/-- Python `Path.suffix` of a path. -/
def suffixOf (p : AbsPath) : String :=
  nameSuffix (nameOf p)

/-- Python `Path.stem`: the final component without its suffix. -/
def stemOf (n : String) : String :=
  String.mk (n.data.take (n.data.length - (nameSuffix n).data.length))

/-- Join a (resolved) directory with a raw path string and resolve, the way
`(base / s).resolve()` behaves lexically: an absolute `s` replaces the base. -/
def joinPath (base : AbsPath) (s : String) : AbsPath :=
  let p := parsePath s
  if p.1 then collapse [] p.2 else collapse base p.2

/-- Embedding of `utils.is_under_any_root`: `path.relative_to(r)` succeeds
iff `r`'s components are a prefix of `path`'s (equality included). -/
def isUnderAnyRoot (p : AbsPath) (roots : List AbsPath) : Bool :=
  roots.any (fun r => r.isPrefixOf p)

/-- Embedding of `utils.safe_join_dir`: replace `/` and `\` in the file name
by `_`, then `(dir_path / filename).resolve()`. -/
def safeJoinDir (dir : AbsPath) (filename : String) : AbsPath :=
  joinPath dir (replCh '\\' '_' (replCh '/' '_' filename))

/-- Embedding of `utils.is_hidden`: leading-dot name. -/
def isHidden (n : String) : Bool :=
  pyStartsWith n (".")

/-- Python truthiness of an optional string (`None` and `""` are falsy). -/
def truthy : Option String → Bool
  | none => false
  | some s => !s.isEmpty

/-! ## Filesystem model -/

structure FSEntry where
  path : AbsPath
  isDir : Bool
deriving DecidableEq

structure FS where
  entries : List FSEntry
deriving DecidableEq

/-- Python `Path.exists()`. -/
def existsP (fs : FS) (p : AbsPath) : Bool :=
  fs.entries.any (fun e => e.path == p)

/-- Python `Path.is_dir()`. -/
def isDirP (fs : FS) (p : AbsPath) : Bool :=
  fs.entries.any (fun e => e.path == p && e.isDir)

/-- State-passing read of `exists` (reads leave the filesystem unchanged). -/
def existsS (p : AbsPath) (fs : FS) : Bool × FS :=
  (existsP fs p, fs)

/-- State-passing read of `is_dir`. -/
def isDirS (p : AbsPath) (fs : FS) : Bool × FS :=
  (isDirP fs p, fs)

/-- Python `Path.iterdir()`: immediate children, in filesystem order.  Modelled as
prefix filtering (a non-directory simply has no children). -/
def iterdirF (fs : FS) (d : AbsPath) : List FSEntry :=
  fs.entries.filter (fun e => e.path.length == d.length + 1 && d.isPrefixOf e.path)

/-! ## Error model -/

inductive Err where
  | guard (msg : String)
  | permission (msg : String)
  | typeError
  | attrError
  | fileExists
  | notADirectory
  | fileNotFound
  | isADirectoryError
  | shutilError
deriving DecidableEq

/-- Python `str(e)` for the non-guard, non-permission exceptions (opaque
renderings; the claims do not depend on these texts). -/
def pyErrStr : Err → String
  | .guard m => m
  | .permission m => m
  | .typeError => "TypeError"
  | .attrError => "AttributeError"
  | .fileExists => "FileExistsError"
  | .notADirectory => "NotADirectoryError"
  | .fileNotFound => "FileNotFoundError"
  | .isADirectoryError => "IsADirectoryError"
  | .shutilError => "shutil.Error"

/-- All ancestors of a path including itself (excluding the root). -/
def ancestorsOf (p : AbsPath) : List AbsPath :=
  (List.range p.length).map (fun i => p.take (i + 1))

/-- Python `Path.mkdir(parents=True, exist_ok=True)`. -/
def mkdirParentsE (fs : FS) (p : AbsPath) : Except Err FS :=
  if existsP fs p then
    if isDirP fs p then .ok fs else .error .fileExists
  else if (ancestorsOf p).any (fun q => existsP fs q && !isDirP fs q) then
    .error .notADirectory
  else
    .ok ⟨fs.entries ++ ((ancestorsOf p).filter (fun q => !existsP fs q)).map
      (fun q => ⟨q, true⟩)⟩

/-- Relocate the subtree at `src` to `real`, clobbering whatever was at
`real` (models `os.rename` on the success path). -/
def movePathFS (fs : FS) (src real : AbsPath) : FS :=
  ⟨(fs.entries.filter (fun e => !(real.isPrefixOf e.path))).map
    (fun e => if src.isPrefixOf e.path then ⟨real ++ e.path.drop src.length, e.isDir⟩ else e)⟩

/-- Python `shutil.move(src, dst)`: if `dst` is an existing directory the real
destination is `dst/src.name` and an existing real destination is an error;
otherwise an existing file at `dst` is overwritten. -/
def shutilMoveE (fs : FS) (src dst : AbsPath) : Except Err FS :=
  if !existsP fs src then .error .fileNotFound
  else if isDirP fs dst then
    let real := dst ++ [nameOf src]
    if existsP fs real then .error .shutilError else .ok (movePathFS fs src real)
  else .ok (movePathFS fs src dst)

/-- Python `Path.rename(dst)` (`os.rename`): fails if the source is missing, the
destination parent is missing, or the destination is an existing directory;
an existing destination file is overwritten. -/
def renameE (fs : FS) (p dst : AbsPath) : Except Err FS :=
  if !existsP fs p then .error .fileNotFound
  else if decide (dst ≠ []) && decide (parentOf dst ≠ []) && !existsP fs (parentOf dst) then
    .error .fileNotFound
  else if isDirP fs dst then .error .isADirectoryError
  else .ok (movePathFS fs p dst)

/-! ## Action record (actions.py) and its wire format -/

/-- Embedding of the `Action` dataclass.  The Python `type` annotation is a
`Literal`, but nothing enforces it (the wire format accepts any string), so
the kind is a plain string. -/
structure Action where
  type : String
  src : Option String := none
  dst_dir : Option String := none
  path : Option String := none
  new_name : Option String := none
  name : Option String := none
  risk : String := "low"
  reason : String := ""
deriving DecidableEq

def typeKey : String := "type"
def srcKey : String := "src"
def dstDirKey : String := "dst_dir"
def pathKey : String := "path"
def newNameKey : String := "new_name"
def nameKey : String := "name"
def riskKey : String := "risk"
def reasonKey : String := "reason"
def riskLow : String := "low"
def riskHigh : String := "high"

/-- A Python dict with string keys and string values, in insertion order. -/
abbrev Dict := List (String × String)

/-- Update an existing key in place or append a new one (Python dict
assignment). -/
def setK (d : Dict) (k v : String) : Dict :=
  if d.any (fun kv => decide (kv.1 = k)) then
    d.map (fun kv => if kv.1 = k then (k, v) else kv)
  else d ++ [(k, v)]

/-- First-match association lookup (Python dict access; the dicts built here
never carry duplicate keys). -/
def lookupK : Dict → String → Option String
  | [], _ => none
  | (k1, v1) :: d, k => if k1 = k then some v1 else lookupK d k

/-- Optional field contribution to `to_dict` (omitted when `None`). -/
def optField (k : String) : Option String → Dict
  | none => []
  | some v => [(k, v)]

/-- Embedding of `Action.to_dict`: `asdict` in field declaration order with
`None`-valued fields removed. -/
def Action.toDict (a : Action) : Dict :=
  [(typeKey, a.type)] ++ optField srcKey a.src ++ optField dstDirKey a.dst_dir ++
    optField pathKey a.path ++ optField newNameKey a.new_name ++ optField nameKey a.name ++
    [(riskKey, a.risk), (reasonKey, a.reason)]

def actionKeys : List String :=
  [typeKey, srcKey, dstDirKey, pathKey, newNameKey, nameKey, riskKey, reasonKey]

/-- Embedding of `main._dict_to_action`: `Action(**d)`.  Unknown keys or a
missing `type` raise in Python, embedded as `none`; absent optional fields
take their dataclass defaults. -/
def dictToAction (d : Dict) : Option Action :=
  if (d.map Prod.fst).all (fun k => actionKeys.contains k) then
    match lookupK d typeKey with
    | none => none
    | some t =>
      some { type := t, src := lookupK d srcKey, dst_dir := lookupK d dstDirKey,
             path := lookupK d pathKey, new_name := lookupK d newNameKey,
             name := lookupK d nameKey, risk := (lookupK d riskKey).getD riskLow,
             reason := (lookupK d reasonKey).getD "" }
  else none

/-! ## Executor (executor.py) -/

def kindMove : String := "move"
def kindRename : String := "rename"
def kindEnsureFolder : String := "ensure_folder"
def kindOpenApp : String := "open_app"
def kindOpenPath : String := "open_path"
def kindPlayMusic : String := "play_music"

def guardMsgHead : String := "路径不在允许范围内："
def moveOverwriteMsg : String := "目标已存在，可能覆盖同名文件"
def renameOverwriteMsg : String := "重命名目标已存在，可能覆盖同名文件"
def extChangeMsg : String := "改变了文件扩展名，属于高风险操作"
def ensureNotDirMsg : String := "同名路径存在但不是文件夹"
def confirmGateMsg : String := "存在高风险操作，需要确认后才能执行"
def guardCaughtHead : String := "安全拦截："
def openAppFailHead : String := "打开应用失败："
def playMusicFailMsg : String := "播放失败"
def unknownKindHead : String := "未知动作类型："
def computedDstKey : String := "computed_dst"
def computedPathKey : String := "computed_path"

/-- The Executor: allowed roots, expanded and resolved at construction
(`Executor.__init__`). -/
structure Executor where
  allowedRoots : List AbsPath

def mkExecutor (ctx : Ctx) (roots : List String) : Executor :=
  ⟨roots.map (expandUser ctx)⟩

/-- Embedding of `Executor._check_path_allowed`. -/
def checkPathAllowed (ex : Executor) (p : AbsPath) : Except Err Unit :=
  if isUnderAnyRoot p ex.allowedRoots then .ok ()
  else .error (.guard (guardMsgHead ++ pathToString p))

/-- One `if a.xxx: self._check_path_allowed(expand_user(a.xxx))` step of the
preview guard block (a falsy field — `None` or the empty string — is
silently skipped). -/
def guardField (ctx : Ctx) (ex : Executor) (o : Option String) : Except Err Unit :=
  match o with
  | none => .ok ()
  | some s => if s.isEmpty then .ok () else checkPathAllowed ex (expandUser ctx s)

/-- The preview guard block: for the four path-carrying kinds, check the
truthy `src`, `path`, `dst_dir` fields, in that order. -/
def guardBlock (ctx : Ctx) (ex : Executor) (a : Action) : Except Err Unit :=
  if a.type = kindMove ∨ a.type = kindRename ∨ a.type = kindEnsureFolder ∨
      a.type = kindOpenPath then
    match guardField ctx ex a.src with
    | .error e => .error e
    | .ok _ =>
      match guardField ctx ex a.path with
      | .error e => .error e
      | .ok _ => guardField ctx ex a.dst_dir
  else .ok ()

/-- One action of `Executor.preview`: returns the output dict and whether
this action set the risky flag, threading the filesystem state (preview only
performs reads, so the state comes back unchanged — proved below). -/
def previewStepS (ctx : Ctx) (ex : Executor) (fs : FS) (a : Action) :
    Except Err (Dict × Bool) × FS :=
  let d := a.toDict
  match guardBlock ctx ex a with
  | .error e => (.error e, fs)
  | .ok _ =>
    if a.type = kindMove then
      match a.src with
      | none => (.error .typeError, fs)
      | some ss =>
        match a.dst_dir with
        | none => (.error .typeError, fs)
        | some ds =>
          let src := expandUser ctx ss
          let dstDir := expandUser ctx ds
          let dst := safeJoinDir dstDir (nameOf src)
          let d := setK d computedDstKey (pathToString dst)
          let r := existsS dst fs
          if r.1 then
            (.ok (setK (setK d riskKey riskHigh) reasonKey moveOverwriteMsg, true), r.2)
          else (.ok (d, false), r.2)
    else if a.type = kindRename then
      match a.path with
      | none => (.error .typeError, fs)
      | some ps =>
        let p := expandUser ctx ps
        match a.new_name with
        | none => (.error .attrError, fs)
        | some nn =>
          let dst := safeJoinDir (parentOf p) nn
          let d := setK d computedDstKey (pathToString dst)
          let r := existsS dst fs
          let dr : Dict × Bool :=
            if r.1 then (setK (setK d riskKey riskHigh) reasonKey renameOverwriteMsg, true)
            else (d, false)
          if !(suffixOf p).isEmpty ∧ !(suffixOf dst).isEmpty ∧
              pyLower (suffixOf p) ≠ pyLower (suffixOf dst) then
            (.ok (setK (setK dr.1 riskKey riskHigh) reasonKey extChangeMsg, true), r.2)
          else (.ok dr, r.2)
    else if a.type = kindEnsureFolder then
      match a.path with
      | none => (.error .typeError, fs)
      | some ps =>
        let folder := expandUser ctx ps
        let d := setK d computedPathKey (pathToString folder)
        let r := existsS folder fs
        if r.1 then
          let r2 := isDirS folder r.2
          if !r2.1 then (.ok (setK (setK d riskKey riskHigh) reasonKey ensureNotDirMsg, true), r2.2)
          else (.ok (d, false), r2.2)
        else (.ok (d, false), r.2)
    else (.ok (d, false), fs)

/-- Preview output: the list of per-action dicts and the batch risky flag. -/
structure PreviewOut where
  actions : List Dict
  requiresConfirm : Bool
deriving DecidableEq

/-- The fold inside `Executor.preview`. -/
def previewAux (ctx : Ctx) (ex : Executor) : FS → List Action → List Dict → Bool →
    Except Err PreviewOut × FS
  | fs, [], acc, risky => (.ok ⟨acc, risky⟩, fs)
  | fs, a :: rest, acc, risky =>
    match previewStepS ctx ex fs a with
    | (.error e, fs') => (.error e, fs')
    | (.ok (d, r), fs') => previewAux ctx ex fs' rest (acc ++ [d]) (risky || r)

/-- Embedding of `Executor.preview` (a `GuardError` propagates; preview is
not result-wrapped). -/
def previewS (ctx : Ctx) (ex : Executor) (fs : FS) (as : List Action) :
    Except Err PreviewOut × FS :=
  previewAux ctx ex fs as [] false

/-- One per-action result record of `Executor.execute`. -/
structure ResEntry where
  action : Dict
  ok : Bool
  error : Option String := none
  movedTo : Option String := none
  renamedTo : Option String := none
deriving DecidableEq

/-- The per-action exception handlers at the bottom of the execute loop. -/
def catchEntry (a : Action) (e : Err) : ResEntry :=
  match e with
  | .guard m => ⟨a.toDict, false, some (guardCaughtHead ++ m), none, none⟩
  | .permission m =>
    ⟨a.toDict, false,
      some ("权限不足，无法访问路径：" ++ m ++
        ". 请在 macOS 系统设置 > 隐私与安全性 中为运行本服务的终端/应用授权文件访问。"),
      none, none⟩
  | other => ⟨a.toDict, false, some (pyErrStr other), none, none⟩

/-- One iteration of the mutation loop of `Executor.execute` (the
`try`/`except` body: a failure is caught and recorded, keeping whatever
filesystem changes already happened inside the action). -/
def execActionS (ctx : Ctx) (ex : Executor) (fs : FS) (a : Action) : ResEntry × FS :=
  if a.type = kindEnsureFolder then
    match a.path with
    | none => (catchEntry a .typeError, fs)
    | some ps =>
      let folder := expandUser ctx ps
      match checkPathAllowed ex folder with
      | .error e => (catchEntry a e, fs)
      | .ok _ =>
        match mkdirParentsE fs folder with
        | .error e => (catchEntry a e, fs)
        | .ok fs1 => (⟨a.toDict, true, none, none, none⟩, fs1)
  else if a.type = kindMove then
    match a.src with
    | none => (catchEntry a .typeError, fs)
    | some ss =>
      match a.dst_dir with
      | none => (catchEntry a .typeError, fs)
      | some ds =>
        let src := expandUser ctx ss
        let dstDir := expandUser ctx ds
        match checkPathAllowed ex src with
        | .error e => (catchEntry a e, fs)
        | .ok _ =>
          match checkPathAllowed ex dstDir with
          | .error e => (catchEntry a e, fs)
          | .ok _ =>
            match mkdirParentsE fs dstDir with
            | .error e => (catchEntry a e, fs)
            | .ok fs1 =>
              let dst := safeJoinDir dstDir (nameOf src)
              match shutilMoveE fs1 src dst with
              | .error e => (catchEntry a e, fs1)
              | .ok fs2 => (⟨a.toDict, true, none, some (pathToString dst), none⟩, fs2)
  else if a.type = kindRename then
    match a.path with
    | none => (catchEntry a .typeError, fs)
    | some ps =>
      let p := expandUser ctx ps
      match checkPathAllowed ex p with
      | .error e => (catchEntry a e, fs)
      | .ok _ =>
        match a.new_name with
        | none => (catchEntry a .attrError, fs)
        | some nn =>
          let dst := safeJoinDir (parentOf p) nn
          match renameE fs p dst with
          | .error e => (catchEntry a e, fs)
          | .ok fs1 => (⟨a.toDict, true, none, none, some (pathToString dst)⟩, fs1)
  else if a.type = kindOpenApp then
    match a.name with
    | none => (catchEntry a .typeError, fs)
    | some n =>
      if ctx.openAppRc n = 0 then (⟨a.toDict, true, none, none, none⟩, fs)
      else
        let m := pyStrip (ctx.openAppMsg n)
        (⟨a.toDict, false,
          some (openAppFailHead ++ n ++ (if m.isEmpty then "" else "\n" ++ m)), none, none⟩, fs)
  else if a.type = kindPlayMusic then
    if ctx.playMusicRc = 0 then (⟨a.toDict, true, none, none, none⟩, fs)
    else
      let m := pyStrip ctx.playMusicMsg
      (⟨a.toDict, false,
        some (playMusicFailMsg ++ (if m.isEmpty then "" else "\n" ++ m)), none, none⟩, fs)
  else if a.type = kindOpenPath then
    match a.path with
    | none => (catchEntry a .typeError, fs)
    | some ps =>
      let p := expandUser ctx ps
      match checkPathAllowed ex p with
      | .error e => (catchEntry a e, fs)
      | .ok _ => (⟨a.toDict, true, none, none, none⟩, fs)
  else (⟨a.toDict, false, some (unknownKindHead ++ a.type), none, none⟩, fs)

/-- The mutation loop of `Executor.execute`. -/
def execLoopS (ctx : Ctx) (ex : Executor) : FS → List Action → List ResEntry × FS
  | fs, [] => ([], fs)
  | fs, a :: rest =>
    let r := execActionS ctx ex fs a
    let rs := execLoopS ctx ex r.2 rest
    (r.1 :: rs.1, rs.2)

/-- The overall result of `Executor.execute`: the confirmation-gate return
carries `error` and no `results`; the normal return carries `results` and no
`error`. -/
structure ExecOut where
  ok : Bool
  error : Option String
  results : Option (List ResEntry)
  preview : PreviewOut
deriving DecidableEq

/-- Embedding of `Executor.execute`: always runs `preview` first (whose
`GuardError` propagates uncaught), gates on `requires_confirm`/`confirm`,
then runs the mutation loop. -/
def executeS (ctx : Ctx) (ex : Executor) (fs : FS) (as : List Action) (confirm : Bool) :
    Except Err ExecOut × FS :=
  match previewS ctx ex fs as with
  | (.error e, fs1) => (.error e, fs1)
  | (.ok pr, fs1) =>
    if pr.requiresConfirm && !confirm then
      (.ok ⟨false, some confirmGateMsg, none, pr⟩, fs1)
    else
      let r := execLoopS ctx ex fs1 as
      (.ok ⟨r.1.all (fun e => e.ok), none, some r.1, pr⟩, r.2)

/-! ## A small backtracking regex matcher

`planner.py` matches the input against fixed `re` patterns.  The pattern
language used there needs only: ordered literal alternation, `\s*`, lazy
`(.+?)`, greedy `(.+)`, greedy uncaptured `.*`, and greedy optional groups
`(?:...)?`.  The matcher below implements exactly Python `re` backtracking
semantics for these constructs (`re.match`, anchored at the start; the
patterns end in `$`, which is the empty-rest condition).  The fuel only
bounds the depth of the backtracking call tree, which is at most
`patternSize * (input length + 3)`; `rxFuel` strictly dominates this for
the fixed patterns used, so the fuel never runs out. -/

inductive Rx where
  | lits (alts : List String)
  | ws
  | lazyGrp
  | greedyGrp
  | anyStar
  | optSeq (groups : Nat) (inner : List Rx)

/-- Length of the leading whitespace run (`\s*` matches at most this much). -/
def leadWs (s : List Char) : Nat :=
  (s.takeWhile Char.isWhitespace).length

mutual

/-- Match a pattern sequence against the input; `some caps` returns the
captured groups in order (`none` entries are unmatched optional groups). -/
def mrun : Nat → List Rx → List Char → Option (List (Option String))
  | 0, _, _ => none
  | _ + 1, [], s => if s.isEmpty then some [] else none
  | f + 1, .lits alts :: rest, s => tryLits f alts rest s
  | f + 1, .ws :: rest, s => tryBack f rest s (leadWs s)
  | f + 1, .lazyGrp :: rest, s => tryLazy f rest s 1 s.length
  | f + 1, .greedyGrp :: rest, s => tryGreedy f rest s s.length
  | f + 1, .anyStar :: rest, s => tryBack f rest s s.length
  | f + 1, .optSeq g inner :: rest, s =>
    match mrun f (inner ++ rest) s with
    | some caps => some caps
    | none =>
      match mrun f rest s with
      | some caps => some (List.replicate g none ++ caps)
      | none => none
termination_by structural f _ps _s => f

/-- Ordered alternation of literals: try each alternative in order,
backtracking into later alternatives when the continuation fails. -/
def tryLits : Nat → List String → List Rx → List Char → Option (List (Option String))
  | 0, _, _, _ => none
  | _ + 1, [], _, _ => none
  | f + 1, alt :: alts, rest, s =>
    if alt.data.isPrefixOf s then
      match mrun f rest (s.drop alt.data.length) with
      | some caps => some caps
      | none => tryLits f alts rest s
    else tryLits f alts rest s
termination_by structural f _alts _rest _s => f

/-- Greedy uncaptured repetition: consume `k` characters, backing off one at
a time down to zero (used for `\s*` with `k = leadWs s` and for `.*` with
`k = s.length`). -/
def tryBack : Nat → List Rx → List Char → Nat → Option (List (Option String))
  | 0, _, _, _ => none
  | f + 1, rest, s, k =>
    match mrun f rest (s.drop k) with
    | some caps => some caps
    | none =>
      match k with
      | 0 => none
      | k' + 1 => tryBack f rest s k'
termination_by structural f _rest _s _k => f

/-- Lazy captured `(.+?)`: try capture lengths `l, l+1, ...` with `k`
attempts remaining. -/
def tryLazy : Nat → List Rx → List Char → Nat → Nat → Option (List (Option String))
  | 0, _, _, _, _ => none
  | _ + 1, _, _, _, 0 => none
  | f + 1, rest, s, l, k + 1 =>
    match mrun f rest (s.drop l) with
    | some caps => some (some (String.mk (s.take l)) :: caps)
    | none => tryLazy f rest s (l + 1) k
termination_by structural f _rest _s _l _k => f

/-- Greedy captured `(.+)`: try capture lengths `l+1, l, ..., 1`. -/
def tryGreedy : Nat → List Rx → List Char → Nat → Option (List (Option String))
  | 0, _, _, _ => none
  | _ + 1, _, _, 0 => none
  | f + 1, rest, s, l + 1 =>
    match mrun f rest (s.drop (l + 1)) with
    | some caps => some (some (String.mk (s.take (l + 1))) :: caps)
    | none => tryGreedy f rest s l
termination_by structural f _rest _s _l => f

end

def rxFuel (s : List Char) : Nat :=
  64 * (s.length + 8)

def rxMatch (ps : List Rx) (s : String) : Option (List (Option String)) :=
  mrun (rxFuel s.data) ps s.data

/-- Pattern `MOVE_PATTERN` of planner.py. -/
def movePattern : List Rx :=
  [.lits ["把", "将"], .ws, .lazyGrp, .ws,
   .lits ["放到", "放入", "放进", "移动到", "移到", "移动至", "移至"], .ws, .lazyGrp,
   .optSeq 1 [.ws, .optSeq 0 [.lits ["并"]], .lits ["重命名为", "重命名成", "改名为", "改名成"],
     .ws, .greedyGrp],
   .ws]

/-- Matching `MOVE_PATTERN.match(text)` with the `file`, `folder`, `newname` groups. -/
def moveMatch (s : String) : Option (String × String × Option String) :=
  match rxMatch movePattern s with
  | some (some f :: some fo :: nn :: []) => some (f, fo, nn)
  | _ => none

/-- Pattern `OPEN_PATH_PATTERN` of planner.py. -/
def openPathPattern : List Rx :=
  [.lits ["打开路径", "打开文件夹", "打开目录"], .ws, .lazyGrp, .ws]

def openPathMatch (s : String) : Option String :=
  match rxMatch openPathPattern s with
  | some (some p :: []) => some p
  | _ => none

/-- Pattern `OPEN_APP_PATTERN` of planner.py (note the alternation order: `打开`
is tried before `打开应用`, so the latter is effectively dead). -/
def openAppPattern : List Rx :=
  [.lits ["打开软件", "打开", "打开应用"], .ws, .lazyGrp, .ws]

def openAppMatch (s : String) : Option String :=
  match rxMatch openAppPattern s with
  | some (some app :: []) => some app
  | _ => none

/-- Pattern `OPEN_MUSIC_PLAY_PATTERN` of planner.py. -/
def musicPattern : List Rx :=
  [.optSeq 0 [.lits ["打开"]], .lits ["音乐"], .anyStar, .lits ["自动播放", "播放"], .anyStar]

def musicMatch (s : String) : Bool :=
  (rxMatch musicPattern s).isSome

/-! ## Planner (planner.py) -/

structure KeywordRule where
  keywords : List String
  dst_dir : Option String
deriving DecidableEq

/-- The planner configuration loaded by `reload_rules` (already parsed; the
YAML reading itself is outside the core). -/
structure PlannerCfg where
  allowed_roots : List String := ["~/Desktop", "~/Documents", "~/Downloads"]
  keyword_rules : List KeywordRule := []
  extension_rules : List (String × String) := []
  skip_hidden : Bool := true
  skip_directories : Bool := true
  batch_risk_threshold : Nat := 20
deriving DecidableEq

def tildeDesktop : String := "~/Desktop"
def tildeDocuments : String := "~/Documents"
def tildeDownloads : String := "~/Downloads"

def defaultRootsStrs : List String := [tildeDesktop, tildeDocuments, tildeDownloads]

/-- The `loc` alternation of the `_split_location_prefix` regex, in
alternation order, with the base directory each word maps to.  (`下载目录`
and `下载文件夹` are unreachable because `下载` precedes them and the rest
of the pattern always matches.) -/
def locWords : List (String × String) :=
  [("桌面", tildeDesktop), ("文稿", tildeDocuments), ("文档", tildeDocuments),
   ("下载", tildeDownloads), ("下载目录", tildeDownloads), ("下载文件夹", tildeDownloads)]

/-- The optional particle alternation of the same regex, in order. -/
def locParticles : List String :=
  ["下的", "里的", "中的", "下面的", "上面的", "上的", "上面", "下面", "上", "下", "里", "中"]

/-- Embedding of `Planner._split_location_prefix` (the regex is an anchored
alternation of literals, so first-prefix-in-order matching is exact). -/
def splitLocationWord (text : String) : Option String × String :=
  let t := pyStrip text
  match locWords.find? (fun lw => pyStartsWith t lw.1) with
  | none => (none, text)
  | some lw =>
    let rem := String.mk (t.data.drop lw.1.data.length)
    let rem2 :=
      match locParticles.find? (fun p => pyStartsWith rem p) with
      | some p => String.mk (rem.data.drop p.data.length)
      | none => rem
    (some lw.2, pyStrip rem2)

def folderTailWords : List String := ["下面", "下", "里", "中"]

/-- Whether a tail is exactly `(下面|下|里|中)?` (the empty tail counts). -/
def folderTailRest (s : List Char) : Bool :=
  s.isEmpty || folderTailWords.any (fun w => w.data == s)

/-- Whether a tail is exactly `(文件夹)?(下面|下|里|中)?`. -/
def folderTail (s : List Char) : Bool :=
  folderTailRest s ||
    ("文件夹".data.isPrefixOf s && folderTailRest (s.drop ("文件夹".data.length)))

/-- Scan for the earliest position whose whole tail matches
`(文件夹)?(下面|下|里|中)?$` and cut there (this is what
`re.sub(r"(文件夹)?(下面|下|里|中)?$", "", t)` does: the anchored pattern can
only match a whole tail, and `re.sub` replaces at the leftmost position). -/
def folderTailScan : List Char → List Char
  | [] => []
  | c :: cs => if folderTail (c :: cs) then [] else c :: folderTailScan cs

/-- Embedding of `Planner._normalize_folder_text`. -/
def normalizeFolderText (text : String) : String :=
  pyStrip (String.mk (folderTailScan (pyStrip text).data))

/-- Embedding of `Planner._resolve_existing_file`. -/
def resolveExistingFile (fs : FS) (base : AbsPath) (nm : String) : AbsPath :=
  let candidate := joinPath base nm
  if existsP fs candidate then candidate
  else if existsP fs base then
    match (iterdirF fs base).filter
        (fun e => nameOf e.path == nm || stemOf (nameOf e.path) == nm) with
    | [m] => m.path
    | _ => candidate
  else candidate

/-- Embedding of `Planner._resolve_input_file`. -/
def resolveInputFile (ctx : Ctx) (fs : FS) (fileName : String) : AbsPath :=
  if strContains fileName ("/") || pyStartsWith fileName ("~") then expandUser ctx fileName
  else
    match splitLocationWord fileName with
    | (some base, nm) => resolveExistingFile fs (expandUser ctx base) nm
    | (none, _) => resolveExistingFile fs (expandUser ctx tildeDesktop) fileName

/-- Embedding of `Planner._resolve_existing_folder`. -/
def resolveExistingFolder (ctx : Ctx) (fs : FS) (nm : String) : Option String :=
  (defaultRootsStrs.filterMap (fun b =>
    let cand := joinPath (expandUser ctx b) nm
    if existsP fs cand && isDirP fs cand then some (pathToString cand) else none)).head?

def desktopSyns : List String := ["桌面", "桌面上", "桌面里", "桌面中"]
def documentsSyns : List String := ["文稿", "文档", "文稿里", "文稿中", "文档里", "文档中"]
def downloadsSyns : List String := ["下载", "下载目录", "下载文件夹", "下载里", "下载中"]

/-- Embedding of `Planner._resolve_input_folder` (returns a path string). -/
def resolveInputFolder (ctx : Ctx) (fs : FS) (folder : String) : String :=
  if strContains folder ("/") || pyStartsWith folder ("~") then folder
  else
    let f := normalizeFolderText folder
    match splitLocationWord f with
    | (some base, nm) =>
      if !nm.isEmpty then pathToString (joinPath (expandUser ctx base) nm)
      else pathToString (expandUser ctx base)
    | (none, _) =>
      match resolveExistingFolder ctx fs f with
      | some e => e
      | none =>
        if desktopSyns.contains f then pathToString (expandUser ctx tildeDesktop)
        else if documentsSyns.contains f then pathToString (expandUser ctx tildeDocuments)
        else if downloadsSyns.contains f then pathToString (expandUser ctx tildeDownloads)
        else pathToString (joinPath (expandUser ctx tildeDocuments) f)

def appAliases : List (String × String) :=
  [("音乐", "Music"), ("音乐app", "Music"), ("apple music", "Music"),
   ("日历", "Calendar"), ("备忘录", "Notes"), ("提醒事项", "Reminders"),
   ("通讯录", "Contacts"), ("日程", "Calendar"), ("邮件", "Mail"),
   ("邮件.app", "Mail"), ("计算器", "Calculator"), ("终端", "Terminal"),
   ("系统设置", "System Settings"), ("系统偏好设置", "System Settings"),
   ("相册", "Photos")]

/-- Embedding of `Planner._resolve_app_name`. -/
def resolveAppName (nm : String) : String :=
  (lookupK appAliases (pyLower (pyStrip nm))).getD (pyStrip nm)

/-- Embedding of `Planner._match_keyword_rule`: first rule, in declared
order, one of whose truthy keywords is a case-insensitive substring of the
filename; returns that rule's `dst_dir` even when it is unset. -/
def matchKeywordRule (rules : List KeywordRule) (filename : String) : Option String :=
  let low := pyLower filename
  match rules.find? (fun r =>
      r.keywords.any (fun kw => !kw.isEmpty && strContains low (pyLower kw))) with
  | some r => r.dst_dir
  | none => none

def lstripDots (s : String) : String :=
  String.mk (s.data.dropWhile (fun c => c = '.'))

/-- Embedding of `Planner._match_extension_rule`. -/
def matchExtensionRule (exts : List (String × String)) (p : AbsPath) : Option String :=
  let ext := lstripDots (pyLower (suffixOf p))
  if ext.isEmpty then none else lookupK exts ext

/-- The classification chain of `_plan_organize_desktop`: keyword rule,
falling through to the extension rule when the result is falsy, yielding
`none` when both are falsy. -/
def classifyDst (cfg : PlannerCfg) (e : FSEntry) : Option String :=
  let d1 := matchKeywordRule cfg.keyword_rules (nameOf e.path)
  if truthy d1 then d1
  else
    let d2 := matchExtensionRule cfg.extension_rules e.path
    if truthy d2 then d2 else none

/-- The candidate files of `_plan_organize_desktop`: the desktop's children
minus hidden entries and directories (per the config flags). -/
def organizeCandidates (ctx : Ctx) (cfg : PlannerCfg) (fs : FS) : List FSEntry :=
  (iterdirF fs (expandUser ctx tildeDesktop)).filter
    (fun e => !(cfg.skip_hidden && isHidden (nameOf e.path)) &&
      !(cfg.skip_directories && e.isDir))

def batchReasonMsg (t : Nat) : String :=
  "批量操作较多（>" ++ toString t ++ " 个文件），建议确认后执行"

/-- The action list of `_plan_organize_desktop` before batch-risk marking:
each classified candidate contributes `ensure_folder(dst)` then
`move(src=file, dst_dir=dst)`. -/
def organizeBaseActions (ctx : Ctx) (cfg : PlannerCfg) (fs : FS) : List Action :=
  (organizeCandidates ctx cfg fs).flatMap (fun e =>
    match classifyDst cfg e with
    | none => []
    | some dst =>
      [{ type := kindEnsureFolder, path := some dst },
       { type := kindMove, src := some (pathToString e.path), dst_dir := some dst }])

/-- Embedding of `Planner._plan_organize_desktop`. -/
def planOrganizeDesktop (ctx : Ctx) (cfg : PlannerCfg) (fs : FS) : List Action :=
  let acts := organizeBaseActions ctx cfg fs
  if cfg.batch_risk_threshold * 2 ≤ acts.length then
    acts.map (fun a =>
      if a.type = kindMove ∨ a.type = kindRename then
        { a with risk := riskHigh, reason := batchReasonMsg cfg.batch_risk_threshold }
      else a)
  else acts

def emptyInputMsg : String := "请输入指令"

def helpMsg : String :=
  "无法解析指令。可试试：整理桌面文件并分类 / 把 XXX 移动到 YYY 并重命名为 ZZZ / 打开软件 AppName / 打开路径 /path"

def organizeKeys : List String :=
  ["整理桌面", "整理一下桌面", "整理桌面文件", "整理桌面并分类", "整理桌面文件并分类",
   "分类桌面", "分类桌面文件"]

structure PlanResult where
  ok : Bool
  error : Option String
  actions : List Action
deriving DecidableEq

def dquoteChars : List Char := ['"']
def squoteChars : List Char := [Char.ofNat 39]

/-- Stripping `.strip().strip(Chr(34)).strip(Chr(39))` applied to a captured group. -/
def stripQuotes (s : String) : String :=
  pyStripSet squoteChars (pyStripSet dquoteChars (pyStrip s))

/-- The move-branch body of `Planner.plan` (lines building the 2-or-3 action
sequence from the captured groups): `ensure_folder(folder)`,
`move(src, dst_dir=folder)`, and — when a truthy new name was captured — a
`rename` targeting the post-move location `expand_user(folder)/src.name`. -/
def planMoveActions (ctx : Ctx) (fs : FS) (fg fo : String) (nn : Option String) :
    List Action :=
  let fileName := stripQuotes fg
  let folder := resolveInputFolder ctx fs (stripQuotes fo)
  let src := resolveInputFile ctx fs fileName
  [{ type := kindEnsureFolder, path := some folder },
   { type := kindMove, src := some (pathToString src), dst_dir := some folder }] ++
  (match nn with
   | none => []
   | some n =>
     if n.isEmpty then []
     else [{ type := kindRename,
             path := some (pathToString (joinPath (expandUser ctx folder) (nameOf src))),
             new_name := some (pyStrip n) }])

/-- Families 4 and 5 share this fall-through (family 4 falls through both
when its pattern fails and when the text starts with `打开路径`). -/
def planTailOrganize (ctx : Ctx) (cfg : PlannerCfg) (fs : FS) (t : String) : PlanResult :=
  if organizeKeys.any (fun k => strContains t k) then
    ⟨true, none, planOrganizeDesktop ctx cfg fs⟩
  else ⟨false, some helpMsg, []⟩

/-- Embedding of `Planner.plan`: strict priority over the five intent
families. -/
def plan (ctx : Ctx) (cfg : PlannerCfg) (fs : FS) (text : String) : PlanResult :=
  let t := pyStrip text
  if t.isEmpty then ⟨false, some emptyInputMsg, []⟩
  else
    match openPathMatch t with
    | some p => ⟨true, none, [{ type := kindOpenPath, path := some (pyStrip p) }]⟩
    | none =>
      match moveMatch t with
      | some (fg, fo, nn) => ⟨true, none, planMoveActions ctx fs fg fo nn⟩
      | none =>
        if musicMatch t then ⟨true, none, [{ type := kindPlayMusic }]⟩
        else
          match openAppMatch t with
          | some app =>
            if pyStartsWith t ("打开路径") then planTailOrganize ctx cfg fs t
            else ⟨true, none,
              [{ type := kindOpenApp, name := some (resolveAppName (pyStrip app)) }]⟩
          | none => planTailOrganize ctx cfg fs t

/-! ## Helper lemmas -/

theorem lookupK_map_repl (d : Dict) (k v : String)
    (h : d.any (fun kv => decide (kv.1 = k)) = true) :
    lookupK (d.map (fun kv => if kv.1 = k then (k, v) else kv)) k = some v := by
  induction d with
  | nil => simp at h
  | cons kv d ih =>
    rw [List.any_cons, Bool.or_eq_true, decide_eq_true_eq] at h
    by_cases hk : kv.1 = k
    · rw [List.map_cons, if_pos hk]
      simp [lookupK]
    · have h2 : d.any (fun kv => decide (kv.1 = k)) = true := by
        rcases h with h | h
        · exact absurd h hk
        · exact h
      rw [List.map_cons, if_neg hk]
      show (if kv.1 = k then some kv.2 else _) = some v
      rw [if_neg hk]
      exact ih h2

theorem lookupK_append_new (d : Dict) (k v : String)
    (h : d.any (fun kv => decide (kv.1 = k)) = false) :
    lookupK (d ++ [(k, v)]) k = some v := by
  induction d with
  | nil => simp [lookupK]
  | cons kv d ih =>
    rw [List.any_cons, Bool.or_eq_false_iff] at h
    rw [List.cons_append]
    show (if kv.1 = k then some kv.2 else _) = some v
    rw [if_neg (decide_eq_false_iff_not.mp h.1)]
    exact ih h.2

theorem lookupK_setK (d : Dict) (k v : String) : lookupK (setK d k v) k = some v := by
  unfold setK
  by_cases h : d.any (fun kv => decide (kv.1 = k)) = true
  · rw [if_pos h]; exact lookupK_map_repl d k v h
  · rw [if_neg h]; exact lookupK_append_new d k v (Bool.eq_false_iff.mpr h)

theorem lookupK_map_repl_ne (d : Dict) (k k2 v : String) (hne : k ≠ k2) :
    lookupK (d.map (fun kv => if kv.1 = k2 then (k2, v) else kv)) k = lookupK d k := by
  induction d with
  | nil => simp
  | cons kv d ih =>
    by_cases hk : kv.1 = k2
    · rw [List.map_cons, if_pos hk]
      show (if k2 = k then some v else _) = _
      rw [if_neg (Ne.symm hne)]
      show _ = (if kv.1 = k then some kv.2 else lookupK d k)
      rw [if_neg (fun hh : kv.1 = k => hne (hh.symm.trans hk))]
      exact ih
    · rw [List.map_cons, if_neg hk]
      show (if kv.1 = k then some kv.2 else _) = (if kv.1 = k then some kv.2 else _)
      by_cases h3 : kv.1 = k
      · rw [if_pos h3, if_pos h3]
      · rw [if_neg h3, if_neg h3]
        exact ih

theorem lookupK_append_ne (d : Dict) (k k2 v : String) (hne : k ≠ k2) :
    lookupK (d ++ [(k2, v)]) k = lookupK d k := by
  induction d with
  | nil => simp [lookupK, if_neg (Ne.symm hne)]
  | cons kv d ih =>
    rw [List.cons_append]
    show (if kv.1 = k then some kv.2 else _) = (if kv.1 = k then some kv.2 else _)
    by_cases h3 : kv.1 = k
    · rw [if_pos h3, if_pos h3]
    · rw [if_neg h3, if_neg h3]
      exact ih

theorem lookupK_setK_ne (d : Dict) (k k2 v : String) (hne : k ≠ k2) :
    lookupK (setK d k2 v) k = lookupK d k := by
  unfold setK
  by_cases h : d.any (fun kv => decide (kv.1 = k2)) = true
  · rw [if_pos h]; exact lookupK_map_repl_ne d k k2 v hne
  · rw [if_neg h]; exact lookupK_append_ne d k k2 v hne

/-- Preview steps only perform filesystem reads: the state comes back
unchanged. -/
theorem previewStepS_fs (ctx : Ctx) (ex : Executor) (fs : FS) (a : Action) :
    (previewStepS ctx ex fs a).2 = fs := by
  simp only [previewStepS, existsS, isDirS]
  repeat' split
  all_goals rfl

/-- The preview fold leaves the filesystem unchanged. -/
theorem previewAux_fs (ctx : Ctx) (ex : Executor) (as : List Action) :
    ∀ fs acc risky, (previewAux ctx ex fs as acc risky).2 = fs := by
  induction as with
  | nil => intro fs acc risky; rfl
  | cons a rest ih =>
    intro fs acc risky
    unfold previewAux
    have hstep := previewStepS_fs ctx ex fs a
    rcases h : previewStepS ctx ex fs a with ⟨r, fs2⟩
    rw [h] at hstep
    simp only at hstep
    cases r with
    | error e => exact hstep
    | ok dr => rcases dr with ⟨d, r2⟩; exact (ih fs2 (acc ++ [d]) (risky || r2)).trans hstep

/-- Claim C8: `Executor.preview` is side-effect-free and idempotent — it
performs no filesystem mutation, and a second call on the resulting state
yields the identical output. -/
theorem C8_preview_side_effect_free_idempotent (ctx : Ctx) (ex : Executor) (fs : FS)
    (as : List Action) :
    (previewS ctx ex fs as).2 = fs ∧
    previewS ctx ex ((previewS ctx ex fs as).2) as = previewS ctx ex fs as := by
  have h : (previewS ctx ex fs as).2 = fs := previewAux_fs ctx ex as fs [] false
  exact ⟨h, by rw [h]⟩

/-- Claim C9: reconstructing an `Action` from `to_dict` output restores the
identical record, and `to_dict` contains exactly the keys of the non-`None`
fields (`type`, `risk`, `reason` are always present). -/
theorem C9_action_dict_round_trip (a : Action) :
    dictToAction (a.toDict) = some a ∧
    (a.toDict).map Prod.fst =
      [typeKey] ++ (if a.src.isSome then [srcKey] else []) ++
      (if a.dst_dir.isSome then [dstDirKey] else []) ++
      (if a.path.isSome then [pathKey] else []) ++
      (if a.new_name.isSome then [newNameKey] else []) ++
      (if a.name.isSome then [nameKey] else []) ++ [riskKey, reasonKey] := by
  obtain ⟨t, src, dd, p, nn, nm, r, rs⟩ := a
  cases src <;> cases dd <;> cases p <;> cases nn <;> cases nm <;>
    simp [Action.toDict, dictToAction, optField, actionKeys, lookupK, typeKey, srcKey,
      dstDirKey, pathKey, newNameKey, nameKey, riskKey, reasonKey, riskLow]

/-! ## Concrete fixtures used by witnesses and counterexamples -/

def wCtx : Ctx :=
  { home := ["home", "u"], cwd := ["w"], openAppRc := fun _ => 0,
    openAppMsg := fun _ => "", playMusicRc := 0, playMusicMsg := "" }

def wEx : Executor := mkExecutor wCtx [tildeDesktop, tildeDocuments, tildeDownloads]

def wDesktop : AbsPath := ["home", "u", "Desktop"]

/-- A small filesystem: home directories, a desktop with `a.txt` and
`b.txt`, and a Documents directory. -/
def wFS : FS :=
  ⟨[⟨["home"], true⟩, ⟨["home", "u"], true⟩, ⟨wDesktop, true⟩,
    ⟨["home", "u", "Desktop", "a.txt"], false⟩, ⟨["home", "u", "Desktop", "b.txt"], false⟩,
    ⟨["home", "u", "Documents"], true⟩]⟩

/-- The same filesystem without `b.txt` (no rename collision). -/
def wFSnoB : FS :=
  ⟨[⟨["home"], true⟩, ⟨["home", "u"], true⟩, ⟨wDesktop, true⟩,
    ⟨["home", "u", "Desktop", "a.txt"], false⟩, ⟨["home", "u", "Documents"], true⟩]⟩

/-! ## C10: unset fields crash preview -/

/-- Claim C10: a `move` action with unset `src` or `dst_dir`, and a `rename`
action with unset `path` or `new_name`, make `Executor.preview` raise an
unhandled Python exception (`TypeError` from `Path(None)`,
`AttributeError` from `None.replace`) while computing the destination —
the guard block silently skips the unset field — instead of returning a
result or reporting a per-action error; nothing in `Action` construction
prevents building such actions. -/
theorem C10_unset_fields_crash_preview (ctx : Ctx) (ex : Executor) (fs : FS) :
    (∀ a : Action, a.type = kindMove → a.src = none →
      guardBlock ctx ex a = .ok () →
      (previewS ctx ex fs [a]).1 = .error .typeError) ∧
    (∀ a : Action, ∀ ss, a.type = kindMove → a.src = some ss → a.dst_dir = none →
      guardBlock ctx ex a = .ok () →
      (previewS ctx ex fs [a]).1 = .error .typeError) ∧
    (∀ a : Action, a.type = kindRename → a.path = none →
      guardBlock ctx ex a = .ok () →
      (previewS ctx ex fs [a]).1 = .error .typeError) ∧
    (∀ a : Action, ∀ ps, a.type = kindRename → a.path = some ps → a.new_name = none →
      guardBlock ctx ex a = .ok () →
      (previewS ctx ex fs [a]).1 = .error .attrError) := by
  refine ⟨?_, ?_, ?_, ?_⟩
  · intro a ht hsrc hg
    simp [previewS, previewAux, previewStepS, hg, ht, hsrc, kindMove]
  · intro a ss ht hsrc hdd hg
    simp [previewS, previewAux, previewStepS, hg, ht, hsrc, hdd, kindMove]
  · intro a ht hp hg
    simp [previewS, previewAux, previewStepS, hg, ht, hp, kindMove, kindRename]
  · intro a ps ht hp hn hg
    simp [previewS, previewAux, previewStepS, hg, ht, hp, hn, kindMove, kindRename]

theorem C10_witness :
    ({ type := kindMove, dst_dir := some ("/home/u/Desktop") } : Action).src = none ∧
    (previewS wCtx wEx wFS
      [{ type := kindMove, dst_dir := some ("/home/u/Desktop") }]).1 = .error .typeError :=
  ⟨rfl, (C10_unset_fields_crash_preview wCtx wEx wFS).1
    { type := kindMove, dst_dir := some ("/home/u/Desktop") } rfl rfl (by decide)⟩

/-! ## C5: rename extension-change escalation -/

/-- Claim C5: for a previewed `rename` whose source and computed destination
both have non-empty extensions differing case-insensitively, the action is
escalated to high risk with the extension-change reason — independently of
whether the collision rule also fired; and renaming `a.txt` to `b.txt`
(concrete instance, no collision) does not trigger the extension rule. -/
theorem C5_rename_extension_escalates (ctx : Ctx) (ex : Executor) (fs : FS) :
    (∀ a : Action, ∀ ps ns, a.type = kindRename → a.path = some ps → a.new_name = some ns →
      guardBlock ctx ex a = .ok () →
      (suffixOf (expandUser ctx ps)).isEmpty = false →
      (suffixOf (safeJoinDir (parentOf (expandUser ctx ps)) ns)).isEmpty = false →
      pyLower (suffixOf (expandUser ctx ps)) ≠
        pyLower (suffixOf (safeJoinDir (parentOf (expandUser ctx ps)) ns)) →
      ∃ d, (previewStepS ctx ex fs a).1 = .ok (d, true) ∧
        lookupK d riskKey = some riskHigh ∧ lookupK d reasonKey = some extChangeMsg) ∧
    (previewStepS wCtx wEx wFSnoB
        { type := kindRename, path := some ("/home/u/Desktop/a.txt"),
          new_name := some ("b.txt") }).1 =
      .ok ([(typeKey, kindRename), (pathKey, "/home/u/Desktop/a.txt"),
            (newNameKey, "b.txt"), (riskKey, riskLow), (reasonKey, ""),
            (computedDstKey, "/home/u/Desktop/b.txt")], false) := by
  constructor
  · intro a ps ns ht hp hn hg hs1 hs2 hs3
    by_cases hex : existsP fs (safeJoinDir (parentOf (expandUser ctx ps)) ns) = true
    · refine ⟨setK (setK (setK (setK (setK a.toDict computedDstKey
          (pathToString (safeJoinDir (parentOf (expandUser ctx ps)) ns))) riskKey riskHigh)
          reasonKey renameOverwriteMsg) riskKey riskHigh) reasonKey extChangeMsg, ?_, ?_,
          lookupK_setK _ _ _⟩
      · simp [previewStepS, hg, ht, hp, hn, existsS, kindRename, kindMove, hex, hs1, hs2, hs3]
      · rw [lookupK_setK_ne _ _ _ _ (by decide), lookupK_setK]
    · refine ⟨setK (setK (setK a.toDict computedDstKey
          (pathToString (safeJoinDir (parentOf (expandUser ctx ps)) ns))) riskKey riskHigh)
          reasonKey extChangeMsg, ?_, ?_, lookupK_setK _ _ _⟩
      · simp [previewStepS, hg, ht, hp, hn, existsS, kindRename, kindMove, hex, hs1, hs2, hs3]
      · rw [lookupK_setK_ne _ _ _ _ (by decide), lookupK_setK]
  · decide

theorem C5_witness :
    ∃ d, (previewStepS wCtx wEx wFS
        { type := kindRename, path := some ("/home/u/Desktop/a.txt"),
          new_name := some ("c.md") }).1 = .ok (d, true) ∧
      lookupK d riskKey = some riskHigh ∧ lookupK d reasonKey = some extChangeMsg :=
  (C5_rename_extension_escalates wCtx wEx wFS).1
    { type := kindRename, path := some ("/home/u/Desktop/a.txt"), new_name := some ("c.md") }
    ("/home/u/Desktop/a.txt") ("c.md") rfl rfl rfl (by decide) (by decide) (by decide)
    (by decide)

/-! ## C6: move destination and the traversal-safe join -/

/-- The join exactly as the claim words it: STRIP (remove) every `/` and `\`
character from the basename before joining.  (The code instead REPLACES them
with an underscore; this definition exists only to be compared against the
code's `safeJoinDir`.) -/
def stripJoinDirSpec (dir : AbsPath) (filename : String) : AbsPath :=
  joinPath dir (String.mk (filename.data.filter (fun c => c ≠ '/' ∧ c ≠ '\\')))

/-- Counterexample for claim C6: for a source whose basename is `a\b`, the
code's computed destination is `.../a_b` (separators replaced by `_`),
whereas the claimed strip-join yields `.../ab`. -/
theorem C6_counterexample :
    (previewStepS wCtx wEx wFS
        { type := kindMove, src := some ("/home/u/Desktop/a\\b"),
          dst_dir := some ("/home/u/Documents") }).1 =
      .ok ([(typeKey, kindMove), (srcKey, "/home/u/Desktop/a\\b"),
            (dstDirKey, "/home/u/Documents"), (riskKey, riskLow), (reasonKey, ""),
            (computedDstKey, "/home/u/Documents/a_b")], false) ∧
    pathToString (stripJoinDirSpec ["home", "u", "Documents"] ("a\\b")) =
      "/home/u/Documents/ab" ∧
    ("/home/u/Documents/a_b" : String) ≠ "/home/u/Documents/ab" := by
  refine ⟨by decide, by decide, by decide⟩

theorem replCh_not_mem (a b : Char) (s : String) (hab : a ≠ b) : a ∉ (replCh a b s).data := by
  unfold replCh
  intro hmem
  simp only [List.mem_map] at hmem
  rcases hmem with ⟨c, _, hc⟩
  by_cases h : c = a
  · rw [if_pos h] at hc; exact hab hc.symm
  · rw [if_neg h] at hc; exact h hc

theorem replCh_pres_not_mem (c a b : Char) (s : String) (hc : c ∉ s.data) (hcb : c ≠ b) :
    c ∉ (replCh a b s).data := by
  unfold replCh
  intro hmem
  simp only [List.mem_map] at hmem
  rcases hmem with ⟨c2, hc2, hc2e⟩
  by_cases h : c2 = a
  · rw [if_pos h] at hc2e; exact hcb hc2e.symm
  · rw [if_neg h] at hc2e; exact hc (hc2e ▸ hc2)

theorem splitChAux_no_sep (sep : Char) :
    ∀ cs acc, sep ∉ cs → splitChAux sep acc cs = [String.mk (acc.reverse ++ cs)] := by
  intro cs
  induction cs with
  | nil => intro acc _; simp [splitChAux]
  | cons c cs ih =>
    intro acc h
    rw [List.mem_cons, not_or] at h
    unfold splitChAux
    rw [if_neg (fun hh : c = sep => h.1 hh.symm)]
    rw [ih (c :: acc) h.2]
    simp

/-- The traversal-safe join appends the separator-replaced basename as one
component, whenever that replaced name is not empty and not a dot form. -/
theorem safeJoinDir_eq_append (dir : AbsPath) (f : String)
    (h1 : replCh '\\' '_' (replCh '/' '_' f) ≠ "")
    (h2 : replCh '\\' '_' (replCh '/' '_' f) ≠ ".")
    (h3 : replCh '\\' '_' (replCh '/' '_' f) ≠ "..") :
    safeJoinDir dir f = dir ++ [replCh '\\' '_' (replCh '/' '_' f)] := by
  have hslash : '/' ∉ (replCh '\\' '_' (replCh '/' '_' f)).data :=
    replCh_pres_not_mem '/' '\\' '_' (replCh '/' '_' f)
      (replCh_not_mem '/' '_' f (by decide)) (by decide)
  have hdata : (replCh '\\' '_' (replCh '/' '_' f)).data ≠ [] := by
    intro hh
    exact h1 (by cases hfn : replCh '\\' '_' (replCh '/' '_' f) with
      | mk l => rw [hfn] at hh; simp at hh; rw [hh])
  unfold safeJoinDir joinPath parsePath
  rw [splitCh, splitChAux_no_sep _ _ _ hslash]
  simp only [List.reverse_nil, List.nil_append]
  have heta : String.mk (replCh '\\' '_' (replCh '/' '_' f)).data =
      replCh '\\' '_' (replCh '/' '_' f) := rfl
  rw [heta]
  have hstart : pyStartsWith (replCh '\\' '_' (replCh '/' '_' f)) ("/") = false := by
    unfold pyStartsWith
    rcases hfd : (replCh '\\' '_' (replCh '/' '_' f)).data with _ | ⟨c, cs⟩
    · exact absurd hfd hdata
    · have : c ≠ '/' := by
        intro hc
        exact hslash (by rw [hfd, hc]; exact List.mem_cons_self _ _)
      simp [List.isPrefixOf]
      intro hc
      exact absurd hc.symm this
  simp only [hstart, Bool.false_eq_true, if_false]
  rw [show List.filter (fun c => decide (c ≠ "") && decide (c ≠ "."))
      [replCh '\\' '_' (replCh '/' '_' f)] = [replCh '\\' '_' (replCh '/' '_' f)] from by
    simp [h1, h2]]
  unfold collapse
  rw [if_neg h3]
  rfl

/-- Claim C6 (amended: the join REPLACES each `/` and `\` in the basename
with `_`, rather than stripping them): the previewed `move` destination is
`dst_dir` joined with the separator-replaced basename of `src`, and an
existing destination escalates to high risk with the overwrite reason. -/
theorem C6_move_destination (ctx : Ctx) (ex : Executor) (fs : FS) :
    ∀ a : Action, ∀ ss ds, a.type = kindMove → a.src = some ss → a.dst_dir = some ds →
      guardBlock ctx ex a = .ok () →
      ∃ d r, (previewStepS ctx ex fs a).1 = .ok (d, r) ∧
        lookupK d computedDstKey =
          some (pathToString (safeJoinDir (expandUser ctx ds) (nameOf (expandUser ctx ss)))) ∧
        (replCh '\\' '_' (replCh '/' '_' (nameOf (expandUser ctx ss))) ≠ "" →
         replCh '\\' '_' (replCh '/' '_' (nameOf (expandUser ctx ss))) ≠ "." →
         replCh '\\' '_' (replCh '/' '_' (nameOf (expandUser ctx ss))) ≠ ".." →
          safeJoinDir (expandUser ctx ds) (nameOf (expandUser ctx ss)) =
            expandUser ctx ds ++
              [replCh '\\' '_' (replCh '/' '_' (nameOf (expandUser ctx ss)))]) ∧
        (existsP fs (safeJoinDir (expandUser ctx ds) (nameOf (expandUser ctx ss))) = true →
          lookupK d riskKey = some riskHigh ∧ lookupK d reasonKey = some moveOverwriteMsg ∧
          r = true) ∧
        (existsP fs (safeJoinDir (expandUser ctx ds) (nameOf (expandUser ctx ss))) = false →
          r = false) := by
  intro a ss ds ht hsrc hdd hg
  simp only [previewStepS, hg, ht, hsrc, hdd, existsS]
  rw [if_pos trivial]
  by_cases hex : existsP fs (safeJoinDir (expandUser ctx ds) (nameOf (expandUser ctx ss))) = true
  · rw [if_pos hex]
    refine ⟨_, true, rfl, ?_, fun ha hb hc => safeJoinDir_eq_append _ _ ha hb hc, ?_, ?_⟩
    · rw [lookupK_setK_ne _ _ _ _ (by decide), lookupK_setK_ne _ _ _ _ (by decide),
        lookupK_setK]
    · intro _
      refine ⟨?_, lookupK_setK _ _ _, rfl⟩
      rw [lookupK_setK_ne _ _ _ _ (by decide), lookupK_setK]
    · intro hcontra
      rw [hcontra] at hex
      simp at hex
  · rw [if_neg hex]
    refine ⟨_, false, rfl, lookupK_setK _ _ _,
      fun ha hb hc => safeJoinDir_eq_append _ _ ha hb hc, ?_, fun _ => rfl⟩
    intro hcontra; exact absurd hcontra hex

theorem C6_witness :
    ∃ d r, (previewStepS wCtx wEx wFS
        { type := kindMove, src := some ("/home/u/Desktop/a.txt"),
          dst_dir := some ("/home/u/Documents") }).1 = .ok (d, r) ∧
      lookupK d computedDstKey =
        some (pathToString (safeJoinDir (expandUser wCtx ("/home/u/Documents"))
          (nameOf (expandUser wCtx ("/home/u/Desktop/a.txt"))))) ∧
      (replCh '\\' '_' (replCh '/' '_'
          (nameOf (expandUser wCtx ("/home/u/Desktop/a.txt")))) ≠ "" →
       replCh '\\' '_' (replCh '/' '_'
          (nameOf (expandUser wCtx ("/home/u/Desktop/a.txt")))) ≠ "." →
       replCh '\\' '_' (replCh '/' '_'
          (nameOf (expandUser wCtx ("/home/u/Desktop/a.txt")))) ≠ ".." →
        safeJoinDir (expandUser wCtx ("/home/u/Documents"))
            (nameOf (expandUser wCtx ("/home/u/Desktop/a.txt"))) =
          expandUser wCtx ("/home/u/Documents") ++
            [replCh '\\' '_' (replCh '/' '_'
              (nameOf (expandUser wCtx ("/home/u/Desktop/a.txt"))))]) ∧
      (existsP wFS (safeJoinDir (expandUser wCtx ("/home/u/Documents"))
          (nameOf (expandUser wCtx ("/home/u/Desktop/a.txt")))) = true →
        lookupK d riskKey = some riskHigh ∧ lookupK d reasonKey = some moveOverwriteMsg ∧
        r = true) ∧
      (existsP wFS (safeJoinDir (expandUser wCtx ("/home/u/Documents"))
          (nameOf (expandUser wCtx ("/home/u/Desktop/a.txt")))) = false →
        r = false) :=
  C6_move_destination wCtx wEx wFS
    { type := kindMove, src := some ("/home/u/Desktop/a.txt"),
      dst_dir := some ("/home/u/Documents") }
    ("/home/u/Desktop/a.txt") ("/home/u/Documents") rfl rfl rfl (by decide)

/-! ## C3: the confirmation gate -/

/-- Claim C3: `execute` always runs `preview` first; when the preview
requires confirmation and `confirm` is false it returns `ok = false` with
the preview attached and the filesystem untouched, and with `confirm = true`
it proceeds to the mutation loop. -/
theorem C3_confirmation_gate (ctx : Ctx) (ex : Executor) (fs : FS) (as : List Action)
    (pr : PreviewOut) (h : (previewS ctx ex fs as).1 = .ok pr)
    (hrc : pr.requiresConfirm = true) :
    executeS ctx ex fs as false = (.ok ⟨false, some confirmGateMsg, none, pr⟩, fs) ∧
    executeS ctx ex fs as true =
      (.ok ⟨(execLoopS ctx ex fs as).1.all (fun e => e.ok), none,
        some (execLoopS ctx ex fs as).1, pr⟩, (execLoopS ctx ex fs as).2) := by
  have hfs : (previewS ctx ex fs as).2 = fs := previewAux_fs ctx ex as fs [] false
  have hp : previewS ctx ex fs as = (.ok pr, fs) := by
    rcases hq : previewS ctx ex fs as with ⟨r1, f1⟩
    rw [hq] at h hfs
    simp only at h hfs
    rw [h, hfs]
  constructor
  · unfold executeS
    rw [hp]
    simp [hrc]
  · unfold executeS
    rw [hp]
    simp [hrc]

def c3act : Action :=
  { type := kindRename, path := some ("/home/u/Desktop/a.txt"), new_name := some ("b.txt") }

def c3pr : PreviewOut :=
  ⟨[[(typeKey, kindRename), (pathKey, "/home/u/Desktop/a.txt"), (newNameKey, "b.txt"),
     (riskKey, riskHigh), (reasonKey, renameOverwriteMsg),
     (computedDstKey, "/home/u/Desktop/b.txt")]], true⟩

theorem C3_witness :
    executeS wCtx wEx wFS [c3act] false = (.ok ⟨false, some confirmGateMsg, none, c3pr⟩, wFS) ∧
    executeS wCtx wEx wFS [c3act] true =
      (.ok ⟨(execLoopS wCtx wEx wFS [c3act]).1.all (fun e => e.ok), none,
        some (execLoopS wCtx wEx wFS [c3act]).1, c3pr⟩, (execLoopS wCtx wEx wFS [c3act]).2) :=
  C3_confirmation_gate wCtx wEx wFS [c3act] c3pr (by decide) (by decide)

/-! ## C4: batch escalation in the bulk organize plan -/

theorem organizeBaseActions_length (ctx : Ctx) (cfg : PlannerCfg) (fs : FS) :
    (organizeBaseActions ctx cfg fs).length =
      2 * ((organizeCandidates ctx cfg fs).countP (fun e => (classifyDst cfg e).isSome)) := by
  unfold organizeBaseActions
  generalize organizeCandidates ctx cfg fs = l
  induction l with
  | nil => simp
  | cons e l ih =>
    rw [List.flatMap_cons, List.countP_cons]
    cases h : classifyDst cfg e with
    | none => simp [h, ih]
    | some dst => simp [h, ih]; omega

theorem organizeBaseActions_fields (ctx : Ctx) (cfg : PlannerCfg) (fs : FS) :
    ∀ a ∈ organizeBaseActions ctx cfg fs, a.risk = riskLow ∧ a.reason = "" := by
  unfold organizeBaseActions
  intro a ha
  rw [List.mem_flatMap] at ha
  obtain ⟨e, _, hae⟩ := ha
  cases h : classifyDst cfg e with
  | none => rw [h] at hae; simp at hae
  | some dst =>
    rw [h] at hae
    simp only [List.mem_cons, List.not_mem_nil, or_false] at hae
    rcases hae with hae | hae
    · rw [hae]; exact ⟨rfl, rfl⟩
    · rw [hae]; exact ⟨rfl, rfl⟩

/-- Claim C4: the bulk organize plan yields exactly two actions per
classified file; when the total action count reaches
`batch_risk_threshold * 2`, every move/rename action in the batch carries
`risk = high` with the batch-size reason, and below that bound the batch
rule escalates nothing (all built actions keep the default low risk). -/
theorem C4_batch_escalation (ctx : Ctx) (cfg : PlannerCfg) (fs : FS) :
    (planOrganizeDesktop ctx cfg fs).length =
      2 * ((organizeCandidates ctx cfg fs).countP (fun e => (classifyDst cfg e).isSome)) ∧
    (cfg.batch_risk_threshold * 2 ≤ (planOrganizeDesktop ctx cfg fs).length →
      ∀ a ∈ planOrganizeDesktop ctx cfg fs, a.type = kindMove ∨ a.type = kindRename →
        a.risk = riskHigh ∧ a.reason = batchReasonMsg cfg.batch_risk_threshold) ∧
    ((planOrganizeDesktop ctx cfg fs).length < cfg.batch_risk_threshold * 2 →
      ∀ a ∈ planOrganizeDesktop ctx cfg fs, a.risk = riskLow ∧ a.reason = "") := by
  unfold planOrganizeDesktop
  by_cases hlen : cfg.batch_risk_threshold * 2 ≤ (organizeBaseActions ctx cfg fs).length
  · rw [if_pos hlen]
    refine ⟨?_, ?_, ?_⟩
    · rw [List.length_map]; exact organizeBaseActions_length ctx cfg fs
    · intro _ a ha htype
      rw [List.mem_map] at ha
      obtain ⟨b, _, hba⟩ := ha
      by_cases hb : b.type = kindMove ∨ b.type = kindRename
      · rw [if_pos hb] at hba
        rw [← hba]
        exact ⟨rfl, rfl⟩
      · rw [if_neg hb] at hba
        rw [← hba] at htype
        exact absurd htype hb
    · intro hlt
      rw [List.length_map] at hlt
      omega
  · rw [if_neg hlen]
    refine ⟨organizeBaseActions_length ctx cfg fs, ?_, ?_⟩
    · intro hge
      exact absurd hge hlen
    · intro _ a ha
      exact organizeBaseActions_fields ctx cfg fs a ha

def c4cfg : PlannerCfg :=
  { extension_rules := [("txt", "~/Documents/文本")], batch_risk_threshold := 1 }

theorem C4_witness :
    (planOrganizeDesktop wCtx c4cfg wFS).length = 4 ∧
    (∀ a ∈ planOrganizeDesktop wCtx c4cfg wFS, a.type = kindMove ∨ a.type = kindRename →
      a.risk = riskHigh ∧ a.reason = batchReasonMsg 1) := by
  have h := C4_batch_escalation wCtx c4cfg wFS
  refine ⟨h.1.trans (by decide), ?_⟩
  have h2 := h.2.1 (by decide)
  simpa using h2

/-! ## C1: the allowed-roots guard -/

theorem guardField_err (ctx : Ctx) (ex : Executor) (o : Option String) (p : AbsPath)
    (htr : truthy o = true) (hp : expandUser ctx (o.getD "") = p)
    (hout : isUnderAnyRoot p ex.allowedRoots = false) :
    guardField ctx ex o = .error (.guard (guardMsgHead ++ pathToString p)) := by
  cases o with
  | none => simp [truthy] at htr
  | some s =>
    rw [truthy, Bool.not_eq_true'] at htr
    rw [Option.getD_some] at hp
    simp only [guardField]
    rw [if_neg (by rw [htr]; exact Bool.false_ne_true)]
    unfold checkPathAllowed
    rw [hp, hout]
    simp

theorem guardField_cases (ctx : Ctx) (ex : Executor) (o : Option String) :
    guardField ctx ex o = .ok () ∨ ∃ m, guardField ctx ex o = .error (.guard m) := by
  cases o with
  | none => exact Or.inl rfl
  | some s =>
    simp only [guardField]
    by_cases he : s.isEmpty = true
    · rw [if_pos he]; exact Or.inl rfl
    · rw [if_neg he]
      unfold checkPathAllowed
      by_cases hu : isUnderAnyRoot (expandUser ctx s) ex.allowedRoots = true
      · rw [if_pos hu]; exact Or.inl rfl
      · rw [if_neg hu]; exact Or.inr ⟨_, rfl⟩

theorem guardBlock_err (ctx : Ctx) (ex : Executor) (a : Action) (p : AbsPath)
    (hkind : a.type = kindMove ∨ a.type = kindRename ∨ a.type = kindEnsureFolder ∨
      a.type = kindOpenPath)
    (hfield : (truthy a.src = true ∧ expandUser ctx (a.src.getD "") = p) ∨
              (truthy a.path = true ∧ expandUser ctx (a.path.getD "") = p) ∨
              (truthy a.dst_dir = true ∧ expandUser ctx (a.dst_dir.getD "") = p))
    (hout : isUnderAnyRoot p ex.allowedRoots = false) :
    ∃ m, guardBlock ctx ex a = .error (.guard m) := by
  unfold guardBlock
  rw [if_pos hkind]
  rcases hfield with ⟨h1, h2⟩ | ⟨h1, h2⟩ | ⟨h1, h2⟩
  · rw [guardField_err ctx ex a.src p h1 h2 hout]
    exact ⟨_, rfl⟩
  · rcases guardField_cases ctx ex a.src with hc | ⟨m, hc⟩
    · rw [hc, guardField_err ctx ex a.path p h1 h2 hout]
      exact ⟨_, rfl⟩
    · rw [hc]; exact ⟨m, rfl⟩
  · rcases guardField_cases ctx ex a.src with hc | ⟨m, hc⟩
    · rw [hc]
      rcases guardField_cases ctx ex a.path with hc2 | ⟨m2, hc2⟩
      · rw [hc2, guardField_err ctx ex a.dst_dir p h1 h2 hout]
        exact ⟨_, rfl⟩
      · rw [hc2]; exact ⟨m2, rfl⟩
    · rw [hc]; exact ⟨m, rfl⟩

theorem previewStepS_guard_err (ctx : Ctx) (ex : Executor) (fs : FS) (a : Action) (e : Err)
    (h : guardBlock ctx ex a = .error e) :
    previewStepS ctx ex fs a = (.error e, fs) := by
  unfold previewStepS
  rw [h]

/-- Processing an appended batch: run the first part; on success continue
with its accumulated dicts and risky flag. -/
theorem previewAux_append (ctx : Ctx) (ex : Executor) (xs : List Action) :
    ∀ ys fs acc risky,
      previewAux ctx ex fs (xs ++ ys) acc risky =
        match previewAux ctx ex fs xs acc risky with
        | (.ok out, fs1) => previewAux ctx ex fs1 ys out.actions out.requiresConfirm
        | (.error e, fs1) => (.error e, fs1) := by
  induction xs with
  | nil => intro ys fs acc risky; rfl
  | cons a xs ih =>
    intro ys fs acc risky
    rw [List.cons_append]
    cases hstep : previewStepS ctx ex fs a with
    | mk r fs2 =>
      cases r with
      | error e => simp only [previewAux, hstep]
      | ok dr =>
        cases dr with
        | mk d rr =>
          simp only [previewAux, hstep]
          exact ih ys fs2 (acc ++ [d]) (risky || rr)

/-- Counterexample for claim C1 as stated: an `open_app` action whose `path`
field references a path outside every root passes preview without any
GuardViolation (the guard block only runs for the four path-carrying kinds),
and a `move` action whose `src` is the empty string — which resolves to the
current working directory, outside every root — also passes preview (falsy
fields are silently skipped). -/
theorem C1_counterexample :
    (previewS wCtx wEx wFS
        [{ type := kindOpenApp, name := some ("X"), path := some ("/etc/passwd") }]).1 =
      .ok ⟨[[(typeKey, kindOpenApp), (pathKey, "/etc/passwd"), (nameKey, "X"),
            (riskKey, riskLow), (reasonKey, "")]], false⟩ ∧
    isUnderAnyRoot (expandUser wCtx ("/etc/passwd")) wEx.allowedRoots = false ∧
    (previewS wCtx wEx wFS
        [{ type := kindMove, src := some (""), dst_dir := some ("/home/u/Documents") }]).1 =
      .ok ⟨[[(typeKey, kindMove), (srcKey, ""), (dstDirKey, "/home/u/Documents"),
            (riskKey, riskLow), (reasonKey, ""),
            (computedDstKey, "/home/u/Documents/w")]], false⟩ ∧
    isUnderAnyRoot (expandUser wCtx ("")) wEx.allowedRoots = false := by
  refine ⟨by decide, by decide, by decide, by decide⟩

/-- Claim C1 (amended: restricted to actions of the four path-carrying kinds
`move`, `rename`, `ensure_folder`, `open_path` whose truthy — non-`None`,
non-empty — `src`/`path`/`dst_dir` field resolves outside every allowed
root, with the preceding actions passing preview): preview fails with a
GuardViolation, execute fails with the same GuardViolation, and no
filesystem mutation occurs anywhere in the batch. -/
theorem C1_guard_rejects_outside_paths (ctx : Ctx) (ex : Executor) (fs : FS)
    (pre post : List Action) (a : Action) (p : AbsPath) (pout : PreviewOut) (c : Bool)
    (hpre : (previewS ctx ex fs pre).1 = .ok pout)
    (hkind : a.type = kindMove ∨ a.type = kindRename ∨ a.type = kindEnsureFolder ∨
      a.type = kindOpenPath)
    (hfield : (truthy a.src = true ∧ expandUser ctx (a.src.getD "") = p) ∨
              (truthy a.path = true ∧ expandUser ctx (a.path.getD "") = p) ∨
              (truthy a.dst_dir = true ∧ expandUser ctx (a.dst_dir.getD "") = p))
    (hout : isUnderAnyRoot p ex.allowedRoots = false) :
    ∃ m, (previewS ctx ex fs (pre ++ a :: post)).1 = .error (.guard m) ∧
      executeS ctx ex fs (pre ++ a :: post) c = (.error (.guard m), fs) := by
  obtain ⟨m, hgb⟩ := guardBlock_err ctx ex a p hkind hfield hout
  have hfs : (previewS ctx ex fs pre).2 = fs := previewAux_fs ctx ex pre fs [] false
  have hpre2 : previewAux ctx ex fs pre [] false = (.ok pout, fs) := by
    rcases hq : previewAux ctx ex fs pre [] false with ⟨r1, f1⟩
    unfold previewS at hpre hfs
    rw [hq] at hpre hfs
    simp only at hpre hfs
    rw [hpre, hfs]
  have hfull : previewS ctx ex fs (pre ++ a :: post) = (.error (.guard m), fs) := by
    unfold previewS
    rw [previewAux_append ctx ex pre (a :: post) fs [] false, hpre2]
    show previewAux ctx ex fs (a :: post) pout.actions pout.requiresConfirm = _
    unfold previewAux
    rw [previewStepS_guard_err ctx ex fs a _ hgb]
  refine ⟨m, ?_, ?_⟩
  · rw [hfull]
  · unfold executeS
    rw [hfull]

theorem C1_witness :
    ∃ m, (previewS wCtx wEx wFS
        (([] : List Action) ++ { type := kindEnsureFolder, path := some ("/etc/x") } :: [])).1 =
          .error (.guard m) ∧
      executeS wCtx wEx wFS
        (([] : List Action) ++ { type := kindEnsureFolder, path := some ("/etc/x") } :: [])
        false = (.error (.guard m), wFS) :=
  C1_guard_rejects_outside_paths wCtx wEx wFS [] []
    { type := kindEnsureFolder, path := some ("/etc/x") } ["etc", "x"] ⟨[], false⟩ false
    (by decide) (by decide) (by decide) (by decide)

/-! ## C2: the rename destination is never guard-checked -/

def c2act : Action :=
  { type := kindRename, path := some ("/home/u/Desktop"), new_name := some ("evil") }

/-- Claim C2 fails on the code (code bug): `execute` on
`rename(path=~/Desktop, new_name=evil)` — `~/Desktop` itself passes the
guard because a path equal to a root is allowed — renames the allowed root
to `/home/u/evil` without any guard check on the computed destination
`parent(path)/new_name`, without requiring confirmation, and reports
success; the write lands outside every allowed root. -/
theorem C2_rename_writes_outside_roots :
    executeS wCtx wEx wFS [c2act] false =
      (.ok ⟨true, none,
        some [⟨[(typeKey, kindRename), (pathKey, "/home/u/Desktop"), (newNameKey, "evil"),
               (riskKey, riskLow), (reasonKey, "")], true, none, none,
               some ("/home/u/evil")⟩],
        ⟨[[(typeKey, kindRename), (pathKey, "/home/u/Desktop"), (newNameKey, "evil"),
           (riskKey, riskLow), (reasonKey, ""), (computedDstKey, "/home/u/evil")]],
         false⟩⟩,
       ⟨[⟨["home"], true⟩, ⟨["home", "u"], true⟩, ⟨["home", "u", "evil"], true⟩,
         ⟨["home", "u", "evil", "a.txt"], false⟩, ⟨["home", "u", "evil", "b.txt"], false⟩,
         ⟨["home", "u", "Documents"], true⟩]⟩) ∧
    existsP (executeS wCtx wEx wFS [c2act] false).2 ["home", "u", "evil"] = true ∧
    isUnderAnyRoot ["home", "u", "evil"] wEx.allowedRoots = false := by
  refine ⟨by decide, by decide, by decide⟩

/-! ## C7: the move intent family -/

theorem tryLits_none (rest : List Rx) (s : List Char) :
    ∀ (alts : List String) (f : Nat), (∀ alt ∈ alts, alt.data.isPrefixOf s = false) →
      tryLits f alts rest s = none := by
  intro alts
  induction alts with
  | nil => intro f _; cases f <;> rfl
  | cons alt alts ih =>
    intro f h
    cases f with
    | zero => rfl
    | succ f =>
      simp only [tryLits]
      rw [if_neg (by rw [h alt (List.mem_cons_self _ _)]; exact Bool.false_ne_true)]
      exact ih f (fun a ha => h a (List.mem_cons_of_mem _ ha))

theorem moveMatch_head (s : String) (g : String × String × Option String)
    (h : moveMatch s = some g) :
    pyStartsWith s ("把") = true ∨ pyStartsWith s ("将") = true := by
  by_contra hcon
  rw [not_or] at hcon
  obtain ⟨h1, h2⟩ := hcon
  have h1f : ("把").data.isPrefixOf s.data = false := Bool.eq_false_iff.mpr h1
  have h2f : ("将").data.isPrefixOf s.data = false := Bool.eq_false_iff.mpr h2
  unfold moveMatch rxMatch movePattern at h
  rcases hf : rxFuel s.data with _ | f
  · rw [hf] at h
    simp [mrun] at h
  · rw [hf] at h
    simp only [mrun] at h
    rw [tryLits_none _ _ _ f (by
      intro alt halt
      simp only [List.mem_cons, List.not_mem_nil, or_false] at halt
      rcases halt with halt | halt <;> subst halt
      · exact h1f
      · exact h2f)] at h
    simp at h

theorem openPathMatch_none (s : String)
    (hc : ("打开路径").data.isPrefixOf s.data = false ∧
      ("打开文件夹").data.isPrefixOf s.data = false ∧
      ("打开目录").data.isPrefixOf s.data = false) :
    openPathMatch s = none := by
  unfold openPathMatch rxMatch openPathPattern
  rcases hf : rxFuel s.data with _ | f
  · simp [mrun]
  · simp only [mrun]
    rw [tryLits_none _ _ _ f (by
      intro alt halt
      simp only [List.mem_cons, List.not_mem_nil, or_false] at halt
      rcases halt with halt | halt | halt <;> subst halt
      · exact hc.1
      · exact hc.2.1
      · exact hc.2.2)]

theorem data_cons_of_startsWith1 (s : String) (c : Char)
    (h : ([c] : List Char).isPrefixOf s.data = true) : ∃ cs, s.data = c :: cs := by
  cases hd : s.data with
  | nil => rw [hd] at h; simp [List.isPrefixOf] at h
  | cons c2 cs =>
    rw [hd] at h
    simp only [List.isPrefixOf, Bool.and_eq_true, beq_iff_eq, and_true] at h
    exact ⟨cs, by rw [← h]⟩

/-- Claim C7: every input whose stripped text matches the move intent family
plans exactly `ensure_folder(folder)` then `move(src=resolved file,
dst_dir=folder)`, followed — only when a (truthy) new name was captured — by
a `rename` whose path is the resolved folder joined with the source file's
basename (the post-move location) and whose `new_name` is the stripped
captured name. -/
theorem C7_move_intent_plan (ctx : Ctx) (cfg : PlannerCfg) (fs : FS) (text : String)
    (fg fo : String) (nn : Option String)
    (h : moveMatch (pyStrip text) = some (fg, fo, nn)) :
    plan ctx cfg fs text =
      ⟨true, none,
        [{ type := kindEnsureFolder, path := some (resolveInputFolder ctx fs (stripQuotes fo)) },
         { type := kindMove,
           src := some (pathToString (resolveInputFile ctx fs (stripQuotes fg))),
           dst_dir := some (resolveInputFolder ctx fs (stripQuotes fo)) }] ++
        (match nn with
         | none => []
         | some n =>
           if n.isEmpty then []
           else
             [{ type := kindRename,
                path := some (pathToString (joinPath
                  (expandUser ctx (resolveInputFolder ctx fs (stripQuotes fo)))
                  (nameOf (resolveInputFile ctx fs (stripQuotes fg))))),
                new_name := some (pyStrip n) }])⟩ := by
  have hhead := moveMatch_head _ _ h
  obtain ⟨c, cs, hd, hc⟩ : ∃ c cs, (pyStrip text).data = c :: cs ∧ (c = '把' ∨ c = '将') := by
    rcases hhead with h1 | h1
    · obtain ⟨cs, hd⟩ := data_cons_of_startsWith1 _ _ h1
      exact ⟨_, cs, hd, Or.inl rfl⟩
    · obtain ⟨cs, hd⟩ := data_cons_of_startsWith1 _ _ h1
      exact ⟨_, cs, hd, Or.inr rfl⟩
  have hopen : openPathMatch (pyStrip text) = none := by
    apply openPathMatch_none
    refine ⟨?_, ?_, ?_⟩ <;> rw [hd] <;> rcases hc with hc | hc <;> subst hc <;>
      simp [List.isPrefixOf]
  have hne : (pyStrip text).isEmpty = false := by
    rw [Bool.eq_false_iff]
    intro he
    have hempty : pyStrip text = "" := (String.isEmpty_iff (pyStrip text)).mp he
    rw [hempty] at hd
    simp at hd
  simp only [plan, hne, Bool.false_eq_true, if_false, hopen, h]
  unfold planMoveActions
  cases nn <;> rfl

theorem C7_witness :
    plan wCtx {} wFS ("把a放到b") =
      ⟨true, none,
        [{ type := kindEnsureFolder, path := some ("/home/u/Documents/b") },
         { type := kindMove, src := some ("/home/u/Desktop/a.txt"),
           dst_dir := some ("/home/u/Documents/b") }]⟩ :=
  (C7_move_intent_plan wCtx {} wFS ("把a放到b") ("a") ("b") none (by decide)).trans
    (by decide)

end Agent
